import Mathlib

/-!
Verification of the Speedometer measurement service
(`server/gspeedometer/helpers/util.py` and
`server/gspeedometer/controllers/measurement.py`) against its
natural-language specification.  Python values, objects and the
datastore are shallowly embedded; each source function is translated
into an executable Lean definition of the same name.
-/

namespace Speedometer

/-! Section: Timestamps

`datetime.datetime` values are embedded as a record of numeric fields.
A value constructed by the real library always satisfies `PyDateTime.valid`
below (the library constructor rejects anything else).
-/

/-- Embedding of a `datetime.datetime` value (timezone-unaware). -/
structure PyDateTime where
  year : Nat
  month : Nat
  day : Nat
  hour : Nat
  minute : Nat
  second : Nat
  microsecond : Nat
deriving DecidableEq, Repr

/-- Leap-year rule used by the platform calendar. -/
def isLeap (y : Nat) : Bool :=
  y % 4 == 0 && (y % 100 != 0 || y % 400 == 0)

/-- Number of days of month `m` in year `y`. -/
def daysInMonth (y m : Nat) : Nat :=
  if m = 2 then (if isLeap y then 29 else 28)
  else if m = 4 ∨ m = 6 ∨ m = 9 ∨ m = 11 then 30
  else 31

/-- The invariant every real `datetime.datetime` value satisfies
(`MINYEAR = 1`, `MAXYEAR = 9999`). -/
def PyDateTime.valid (t : PyDateTime) : Prop :=
  1 ≤ t.year ∧ t.year ≤ 9999 ∧
  1 ≤ t.month ∧ t.month ≤ 12 ∧
  1 ≤ t.day ∧ t.day ≤ daysInMonth t.year t.month ∧
  t.hour ≤ 23 ∧ t.minute ≤ 59 ∧ t.second ≤ 59 ∧
  t.microsecond ≤ 999999

instance (t : PyDateTime) : Decidable t.valid := by
  unfold PyDateTime.valid; infer_instance

/-- The decimal digit character for `n < 10`. -/
def digChar (n : Nat) : Char := Char.ofNat (48 + n)

/-- Is `c` one of the characters `0` to `9`. -/
def isDig (c : Char) : Bool := 48 ≤ c.toNat && c.toNat ≤ 57

/-- Numeric value of a digit character. -/
def d2n (c : Char) : Nat := c.toNat - 48

/-- Two-digit zero-padded rendering, as printed by `%02d` for values below 100. -/
def pad2 (n : Nat) : List Char := [digChar (n / 10 % 10), digChar (n % 10)]

/-- Four-digit zero-padded rendering, as printed by `%04d` for values below 10000. -/
def pad4 (n : Nat) : List Char :=
  [digChar (n / 1000 % 10), digChar (n / 100 % 10), digChar (n / 10 % 10), digChar (n % 10)]

/-- Six-digit zero-padded rendering, as printed by `%06d` for values below 1000000. -/
def pad6 (n : Nat) : List Char :=
  [digChar (n / 100000 % 10), digChar (n / 10000 % 10), digChar (n / 1000 % 10),
   digChar (n / 100 % 10), digChar (n / 10 % 10), digChar (n % 10)]

/-- The whole-second part of `datetime.isoformat()`:
`YYYY-MM-DDTHH:MM:SS`. -/
def isoDatePart (y mo d h mi s : Nat) : List Char :=
  pad4 y ++ '-' :: pad2 mo ++ '-' :: pad2 d ++ 'T' :: pad2 h ++
    ':' :: pad2 mi ++ ':' :: pad2 s

/-- Rendering `datetime.isoformat()`: the whole-second part, followed by a
fractional-second part printed as `.%06d` exactly when the microsecond
field is nonzero. -/
def isoformat (t : PyDateTime) : List Char :=
  isoDatePart t.year t.month t.day t.hour t.minute t.second ++
    (if t.microsecond = 0 then [] else '.' :: pad6 t.microsecond)

/-- Function `TimeToString` from `helpers/util.py`: `dt.isoformat() + 'Z'`. -/
def TimeToString (t : PyDateTime) : String :=
  String.mk (isoformat t ++ ['Z'])

/-- Python `str.split('.')`: the maximal dot-free segments of the string. -/
def splitDot : List Char → List (List Char)
  | [] => [[]]
  | c :: rest =>
    match splitDot rest with
    | [] => [[]]
    | h :: t => if c = '.' then [] :: h :: t else (c :: h) :: t

/-- Errors raised while parsing a timestring.  `invalidFormat` is the
explicit `ValueError("Timestring does not end in Z")`; `parseError`
covers failures of `time.strptime`, of the `datetime` constructor, of
`int()` and of `dt.replace`; `indexError` is the out-of-range character
access `extra[-1]` on an empty fractional segment. -/
inductive TimeError where
  | invalidFormat
  | parseError
  | indexError
deriving DecidableEq, Repr

/-- Parsing `time.strptime(strtime, "%Y-%m-%dT%H:%M:%S")[0:6]`: a four-digit
year, two-digit month, day, hour, minute and second separated by the
literal layout characters, with the per-field ranges enforced by the
platform parser (month 1-12, day 1-31, hour 0-23, minute 0-59,
second 0-61). -/
def strptimeYmdHMS (l : List Char) : Option (Nat × Nat × Nat × Nat × Nat × Nat) :=
  match l with
  | [a1, a2, a3, a4, '-', b1, b2, '-', c1, c2, 'T', e1, e2, ':', f1, f2, ':', g1, g2] =>
    if isDig a1 && isDig a2 && isDig a3 && isDig a4 && isDig b1 && isDig b2 &&
       isDig c1 && isDig c2 && isDig e1 && isDig e2 && isDig f1 && isDig f2 &&
       isDig g1 && isDig g2 then
      let y := ((d2n a1 * 10 + d2n a2) * 10 + d2n a3) * 10 + d2n a4
      let mo := d2n b1 * 10 + d2n b2
      let d := d2n c1 * 10 + d2n c2
      let h := d2n e1 * 10 + d2n e2
      let mi := d2n f1 * 10 + d2n f2
      let s := d2n g1 * 10 + d2n g2
      if 1 ≤ mo && mo ≤ 12 && 1 ≤ d && d ≤ 31 && h ≤ 23 && mi ≤ 59 && s ≤ 61 then
        some (y, mo, d, h, mi, s)
      else none
    else none
  | _ => none

/-- The `datetime.datetime(...)` constructor: validates every field and
builds the value (with a zero microsecond field). -/
def pyDatetimeNew (y mo d h mi s : Nat) : Option PyDateTime :=
  if 1 ≤ y ∧ y ≤ 9999 ∧ 1 ≤ mo ∧ mo ≤ 12 ∧ 1 ≤ d ∧ d ≤ daysInMonth y mo ∧
     h ≤ 23 ∧ mi ≤ 59 ∧ s ≤ 59 then
    some ⟨y, mo, d, h, mi, s, 0⟩
  else none

/-- Python `int()` applied to a string of decimal digits: the digits' value;
anything that is empty or contains a non-digit raises (modelled as
`none`). -/
def pyIntDigits (l : List Char) : Option Nat :=
  if l.isEmpty then none
  else if l.all isDig then some (l.foldl (fun a c => a * 10 + d2n c) 0)
  else none

/-- The `while (len(usecstr) < 6): usecstr = usecstr + '0'` loop:
append `'0'` characters on the right up to length 6. -/
def rightPad6 (l : List Char) : List Char :=
  l ++ List.replicate (6 - l.length) '0'

/-- The body of `StringToTime` after `strtime` and `extra` are bound:
parse the whole-second part with the fixed layout and build the
`datetime`, check that the last character of `extra` is `'Z'` (raising
`InvalidFormat` otherwise), then right-pad the remaining fractional
digits to six, read them with `int()` and install them as the
microsecond field via `dt.replace`. -/
def stringToTimeGo (strtime extra : List Char) : Except TimeError PyDateTime :=
  match strptimeYmdHMS strtime with
  | none => .error .parseError
  | some (y, mo, d, h, mi, s) =>
    match pyDatetimeNew y mo d h mi s with
    | none => .error .parseError
    | some dt =>
      match extra.getLast? with
      | none => .error .indexError
      | some c =>
        if c ≠ 'Z' then .error .invalidFormat
        else
          match pyIntDigits (rightPad6 extra.dropLast) with
          | none => .error .parseError
          | some usec =>
            if usec ≤ 999999 then .ok { dt with microsecond := usec }
            else .error .parseError

/-- Function `StringToTime` from `helpers/util.py`, on the character list of the
input.  `thestr.split('.')` unpacks into `strtime, extra` exactly when
it yields two parts; any other shape raises and the bare `except`
branch takes `strtime = thestr[:-1]`, `extra = 'Z'`. -/
def stringToTimeCore (l : List Char) : Except TimeError PyDateTime :=
  match splitDot l with
  | [a, b] => stringToTimeGo a b
  | _ => stringToTimeGo l.dropLast ['Z']

/-- Function `StringToTime` from `helpers/util.py`. -/
def StringToTime (thestr : String) : Except TimeError PyDateTime :=
  stringToTimeCore thestr.data

/-! Section: Dynamic values

Runtime values held by a model field or a JSON payload.  The simple
types of `_SIMPLE_TYPES` (`int`, `long`, `float`, `bool`, `dict`,
`basestring`, `list`) have one constructor each (`float` carried as a
rational); `vdate` is a `datetime` value, `vgeopt` a `db.GeoPt`,
`vmodel` a nested `db.Model` instance given by its property map,
`vuser` a `users.User` identity value, `vuserprop` an instance of the
property-descriptor class `db.UserProperty` itself, and `vother` any
value of an unrecognized type. -/
inductive PVal where
  | vnone
  | vint (n : Int)
  | vfloat (q : Rat)
  | vbool (b : Bool)
  | vstr (s : String)
  | vdict (entries : List (String × PVal))
  | vlist (items : List PVal)
  | vdate (t : PyDateTime)
  | vgeopt (lat lon : Rat)
  | vmodel (props : List (String × PVal))
  | vuser (email : String)
  | vuserprop (email : String)
  | vother (tag : String)

/-- An AppEngine model instance, as consumed by `ConvertToDict`: its
`properties()` map, associating each declared property name with the
runtime value `getattr` returns for it. -/
abbrev PyModel := List (String × PVal)

/-- Failures of the encoding helpers.  `cannotEncode f` is the
`ValueError('cannot encode ' + repr(prop))` raised for the property
named `f` (the descriptor's `repr` is abstracted by the property
name); `attributeError` is the `AttributeError` raised when
`.properties()` is called on a value that is not a model instance. -/
inductive EncodeError where
  | cannotEncode (field : String)
  | attributeError
deriving DecidableEq, Repr

/-- The guard `include_fields is not None and key not in include_fields`. -/
def skipByInclude (inc : Option (List String)) (key : String) : Bool :=
  match inc with
  | some l => !(l.contains key)
  | none => false

/-- The guard `exclude_fields is not None and key in exclude_fields`. -/
def skipByExclude (exc : Option (List String)) (key : String) : Bool :=
  match exc with
  | some l => l.contains key
  | none => false

mutual

/-- The per-field dispatch of `ConvertToDict` on the runtime value of a
property.  Order follows the source: `None` and `_SIMPLE_TYPES` are
copied as-is, `datetime.date` values are formatted with `TimeToString`,
`db.GeoPt` values expand to a latitude/longitude mapping, `db.Model`
values recurse, and then `isinstance(value, db.UserProperty)` is
tested.  A user-identity value at runtime is a `users.User` instance,
which is not an instance of the descriptor class `db.UserProperty`, so
`vuser` falls through every test into the `else` branch; only a literal
`db.UserProperty` instance (`vuserprop`, which no model field ever
holds) takes the `.email()` branch. -/
def convertValue (inc exc : Option (List String)) (key : String) :
    PVal → Except EncodeError PVal
  | .vnone => .ok .vnone
  | .vint n => .ok (.vint n)
  | .vfloat q => .ok (.vfloat q)
  | .vbool b => .ok (.vbool b)
  | .vstr s => .ok (.vstr s)
  | .vdict d => .ok (.vdict d)
  | .vlist l => .ok (.vlist l)
  | .vdate t => .ok (.vstr (TimeToString t))
  | .vgeopt lat lon => .ok (.vdict [("latitude", .vfloat lat), ("longitude", .vfloat lon)])
  | .vmodel props =>
    match convertFields inc exc props with
    | .ok d => .ok (.vdict d)
    | .error e => .error e
  | .vuser _ => .error (.cannotEncode key)
  | .vuserprop email => .ok (.vstr email)
  | .vother _ => .error (.cannotEncode key)

/-- The property loop of `ConvertToDict`: skip a property when an
include list is given and does not contain it, or when an exclude list
is given and contains it; otherwise encode its value and store it in
the output mapping under the property name. -/
def convertFields (inc exc : Option (List String)) :
    List (String × PVal) → Except EncodeError (List (String × PVal))
  | [] => .ok []
  | (key, v) :: rest =>
    if skipByInclude inc key then
      convertFields inc exc rest
    else if skipByExclude exc key then
      convertFields inc exc rest
    else
      match convertValue inc exc key v with
      | .error e => .error e
      | .ok ev =>
        match convertFields inc exc rest with
        | .error e => .error e
        | .ok er => .ok ((key, ev) :: er)

end

/-- Function `ConvertToDict` from `helpers/util.py`: encode every declared
property of the model, subject to the include/exclude lists. -/
def ConvertToDict (model : PyModel) (include_fields exclude_fields : Option (List String)) :
    Except EncodeError (List (String × PVal)) :=
  convertFields include_fields exclude_fields model

mutual

/-- State-threaded rendering of `convertValue`: alongside the encoded
result it returns the field value as it stands after the call, making
any write the source might perform on the traversed object visible.
The source only ever reads (`getattr`, `.email()`, recursion), so every
branch passes the value through. -/
def convertValueTr (inc exc : Option (List String)) (key : String) :
    PVal → Except EncodeError (PVal × PVal)
  | .vnone => .ok (.vnone, .vnone)
  | .vint n => .ok (.vint n, .vint n)
  | .vfloat q => .ok (.vfloat q, .vfloat q)
  | .vbool b => .ok (.vbool b, .vbool b)
  | .vstr s => .ok (.vstr s, .vstr s)
  | .vdict d => .ok (.vdict d, .vdict d)
  | .vlist l => .ok (.vlist l, .vlist l)
  | .vdate t => .ok (.vstr (TimeToString t), .vdate t)
  | .vgeopt lat lon =>
    .ok (.vdict [("latitude", .vfloat lat), ("longitude", .vfloat lon)], .vgeopt lat lon)
  | .vmodel props =>
    match convertFieldsTr inc exc props with
    | .ok (d, props') => .ok (.vdict d, .vmodel props')
    | .error e => .error e
  | .vuser _ => .error (.cannotEncode key)
  | .vuserprop email => .ok (.vstr email, .vuserprop email)
  | .vother _ => .error (.cannotEncode key)

/-- State-threaded rendering of `convertFields`: returns the output
mapping together with the property map as it stands after the loop. -/
def convertFieldsTr (inc exc : Option (List String)) :
    List (String × PVal) → Except EncodeError (List (String × PVal) × List (String × PVal))
  | [] => .ok ([], [])
  | (key, v) :: rest =>
    if skipByInclude inc key then
      match convertFieldsTr inc exc rest with
      | .ok (d, rest') => .ok (d, (key, v) :: rest')
      | .error e => .error e
    else if skipByExclude exc key then
      match convertFieldsTr inc exc rest with
      | .ok (d, rest') => .ok (d, (key, v) :: rest')
      | .error e => .error e
    else
      match convertValueTr inc exc key v with
      | .error e => .error e
      | .ok (ev, v') =>
        match convertFieldsTr inc exc rest with
        | .error e => .error e
        | .ok (er, rest') => .ok ((key, ev) :: er, (key, v') :: rest')

end

/-- Function `ConvertToDict` in state-threaded rendering: its first component is
the output mapping, its second the model's property map after the
traversal (including every nested model reached recursively). -/
def ConvertToDictTr (model : PyModel) (include_fields exclude_fields : Option (List String)) :
    Except EncodeError (List (String × PVal) × PyModel) :=
  convertFieldsTr include_fields exclude_fields model

mutual

/-- Serialization `json.dumps` on a JSON-representable value (string escaping beyond
quoting is not exercised by this service and is left naive). -/
def jsonDumpsVal : PVal → String
  | .vnone => "null"
  | .vint n => toString n
  | .vfloat q => toString q
  | .vbool b => if b then "true" else "false"
  | .vstr s => "\"" ++ s ++ "\""
  | .vdict d => "\x7b" ++ jsonDumpsFields d ++ "\x7d"
  | .vlist l => "[" ++ jsonDumpsItems l ++ "]"
  | _ => "null"

/-- Serialization `json.dumps` on the entries of a mapping. -/
def jsonDumpsFields : List (String × PVal) → String
  | [] => ""
  | [(k, v)] => "\"" ++ k ++ "\": " ++ jsonDumpsVal v
  | (k, v) :: rest => "\"" ++ k ++ "\": " ++ jsonDumpsVal v ++ ", " ++ jsonDumpsFields rest

/-- Serialization `json.dumps` on the items of a list. -/
def jsonDumpsItems : List PVal → String
  | [] => ""
  | [v] => jsonDumpsVal v
  | v :: rest => jsonDumpsVal v ++ ", " ++ jsonDumpsItems rest

end

/-- The runtime value of an optional field-name list: `None` or a list
of strings. -/
def pyOptList : Option (List String) → PVal
  | none => .vnone
  | some l => .vlist (l.map PVal.vstr)

/-- Function `ConvertToJson` from `helpers/util.py`.  The source delegates with
`json.dumps(ConvertToDict(include_fields, exclude_fields))`: the value
of `include_fields` stands in the model-argument position (so the
dict-conversion step immediately calls `.properties()` on it — an
`AttributeError` on `None` or on a list), `exclude_fields` stands in
the include-list position, and the exclude list defaults to `None`.
The `model` argument is never consulted. -/
def ConvertToJson (model : PyModel) (include_fields exclude_fields : Option (List String)) :
    Except EncodeError String :=
  match pyOptList include_fields with
  | .vmodel props =>
    match convertFields exclude_fields none props with
    | .ok d => .ok (jsonDumpsVal (.vdict d))
    | .error e => .error e
  | _ => .error .attributeError

/-! Section: Decoding: `ConvertFromDict`

A model object on the decode side carries its attribute namespace and
the set of per-key decode hooks its class defines.  A hook method
`JSON_DECODE_k` belongs to the model class; its body lives in the
data-model module, which is not part of the supplied source, so a hook
invocation is recorded (key and argument, in call order) rather than
interpreted. -/

/-- A model object as mutated by `ConvertFromDict`: `attrs` is the
attribute map read and written by `getattr`/`setattr`, `hooks` lists
the field names `k` for which the class defines a `JSON_DECODE_k`
method, and `hookCalls` records every hook invocation. -/
structure DObj where
  attrs : List (String × PVal)
  hooks : List String
  hookCalls : List (String × PVal)

/-- Python `setattr(model, k, v)`: replace the value of an existing attribute
in place, or append a new attribute. -/
def setattrList (attrs : List (String × PVal)) (k : String) (v : PVal) :
    List (String × PVal) :=
  match attrs with
  | [] => [(k, v)]
  | (k', v') :: rest => if k' = k then (k, v) :: rest else (k', v') :: setattrList rest k v

/-- Value of key `k` in an association list (Python `d[k]` /
`getattr`), `none` when absent. -/
def lookupKey (k : String) : List (String × PVal) → Option PVal
  | [] => none
  | (k', v) :: rest => if k' = k then some v else lookupKey k rest

/-- Python `del d[k]`: remove the entry for key `k`. -/
def eraseKey (k : String) (d : List (String × PVal)) : List (String × PVal) :=
  d.filter (fun kv => kv.1 ≠ k)

/-- Function `ConvertFromDict` from `helpers/util.py`: for each key/value pair
of the input mapping, skip keys in `fields_to_exclude`; invoke the
decode hook `JSON_DECODE_k` with the value when the model exposes one;
otherwise set the model's attribute `k` to the raw value. -/
def ConvertFromDict (model : DObj) (input_dict : List (String × PVal))
    (fields_to_exclude : List String) : DObj :=
  input_dict.foldl
    (fun m kv =>
      if kv.1 ∈ fields_to_exclude then m
      else if kv.1 ∈ m.hooks then { m with hookCalls := m.hookCalls ++ [kv] }
      else { m with attrs := setattrList m.attrs kv.1 kv.2 })
    model

/-! Section: Measurement controller

`controllers/measurement.py`.  The datastore, the user-identity
service and the templating engine are platform boundaries; they are
embedded as explicit state and parameters.  Entity references held in
attributes are represented by the referenced entity's key. -/

/-- Failures a request handler can raise.  `badRequest` is the explicit
`error.BadRequest`; the others are the uncaught Python exceptions of
the corresponding names (`valueError` covers the `int()` failure on the
detail page's `id` parameter, after which the `finally` block itself
faults on the unbound `measurement` name — either way the request
fails unhandled). -/
inductive HandlerError where
  | badRequest (msg : String)
  | keyError (key : String)
  | typeError
  | attributeError
  | valueError
deriving DecidableEq, Repr

/-- A persisted `DeviceProperties` snapshot: its datastore id and its
object state. -/
structure StoredProps where
  id : Nat
  obj : DObj

/-- A persisted `Measurement`: its datastore id, its object state, and
the id of the `DeviceProperties` snapshot its `device_properties`
attribute references (the direct assignment
`measurement.device_properties = device_properties` supersedes any
like-named attribute, so the reference is carried as its own field). -/
structure StoredMeasurement where
  id : Nat
  obj : DObj
  device_properties : Nat

/-- The object store: `DeviceInfo` entities are their key names
(`device_id`), and the two record kinds carry auto-assigned integer
ids from per-kind counters. -/
structure Datastore where
  deviceInfos : List String
  deviceProps : List StoredProps
  measurements : List StoredMeasurement
  nextPropsId : Nat
  nextMeasId : Nat

/-- The store holding no records. -/
def emptyDatastore : Datastore := ⟨[], [], [], 0, 0⟩

/-- Call `model.DeviceInfo.get_or_insert(device_id)`: idempotent get-or-create
keyed by the device id. -/
def DeviceInfo_get_or_insert (ds : Datastore) (key_name : String) : Datastore × String :=
  if key_name ∈ ds.deviceInfos then (ds, key_name)
  else ({ ds with deviceInfos := ds.deviceInfos ++ [key_name] }, key_name)

/-- Does this stored snapshot belong to the device with key `devKey`? -/
def propsBelongsTo (devKey : String) (sp : StoredProps) : Bool :=
  match lookupKey "device_info" sp.obj.attrs with
  | some (.vstr s) => s = devKey
  | _ => false

/-- The candidate with the largest id, if any. -/
def latestOf (l : List StoredProps) : Option StoredProps :=
  l.foldl
    (fun acc sp =>
      match acc with
      | none => some sp
      | some b => if b.id ≤ sp.id then some sp else some b)
    none

/-- Modelled from the spec: the submission handler calls
`device.GetLatestDeviceProperties(device_info, create_new_if_none=True)`
on an identifier whose defining module is not part of the supplied
source.  Per the spec it fetches the most recently stored
`DeviceProperties` snapshot for the device (recency modelled by
creation id), creating and persisting a default snapshot — a fresh
record associated with the device and otherwise empty — if none exists
yet.  Only the `create_new_if_none=True` behaviour invoked by the
handler is modelled. -/
def GetLatestDeviceProperties (pHooks : List String) (ds : Datastore) (devKey : String) :
    Datastore × (Option Nat × DObj) :=
  match latestOf (ds.deviceProps.filter (propsBelongsTo devKey)) with
  | some sp => (ds, (some sp.id, sp.obj))
  | none =>
    let obj : DObj := ⟨[("device_info", .vstr devKey)], pHooks, []⟩
    ({ ds with
        deviceProps := ds.deviceProps ++ [⟨ds.nextPropsId, obj⟩],
        nextPropsId := ds.nextPropsId + 1 },
     (some ds.nextPropsId, obj))

/-- Call `device_properties.put()`: insert with a fresh id when the record
has never been saved, otherwise overwrite the stored record in place. -/
def DeviceProperties_put (ds : Datastore) (idOpt : Option Nat) (obj : DObj) :
    Datastore × Nat :=
  match idOpt with
  | some i =>
    ({ ds with
        deviceProps := ds.deviceProps.map (fun sp => if sp.id = i then ⟨i, obj⟩ else sp) },
     i)
  | none =>
    ({ ds with
        deviceProps := ds.deviceProps ++ [⟨ds.nextPropsId, obj⟩],
        nextPropsId := ds.nextPropsId + 1 },
     ds.nextPropsId)

/-- Call `measurement.put()` on a freshly constructed `Measurement`: insert
with a fresh id, carrying the snapshot reference assigned just before
the save. -/
def Measurement_put (ds : Datastore) (obj : DObj) (propsId : Nat) : Datastore :=
  { ds with
      measurements := ds.measurements ++ [⟨ds.nextMeasId, obj, propsId⟩],
      nextMeasId := ds.nextMeasId + 1 }

/-- Steps 4-5 shared by both branches of the entry loop: persist the
snapshot, build the `Measurement` from the remaining entry data, attach
the snapshot and persist the measurement. -/
def storePropsAndMeasurement (mHooks : List String) (ds : Datastore)
    (propsIdOpt : Option Nat) (propsObj : DObj) (mdict : List (String × PVal)) :
    Datastore :=
  let put := DeviceProperties_put ds propsIdOpt propsObj
  let measurement := ConvertFromDict ⟨[], mHooks, []⟩ mdict []
  Measurement_put put.1 measurement put.2

/-- One iteration of the `for measurement_dict in measurement_list`
loop of `PostMeasurement`: read `device_id` (logging concatenates it
into a string first, so a missing key raises `KeyError` and a non-string
value `TypeError`), get-or-create the `DeviceInfo`, then either build a
new `DeviceProperties` snapshot from the `properties` sub-object and
delete that key from the entry, or fetch the latest snapshot; persist
the snapshot, then build, link and persist the `Measurement`. -/
def processEntry (mHooks pHooks : List String) (ds : Datastore) (entry : PVal) :
    Except HandlerError Datastore :=
  match entry with
  | .vdict mdict =>
    match lookupKey "device_id" mdict with
    | none => .error (.keyError "device_id")
    | some (.vstr devId) =>
      let gi := DeviceInfo_get_or_insert ds devId
      match lookupKey "properties" mdict with
      | some (.vdict pdict) =>
        let device_properties :=
          ConvertFromDict ⟨[("device_info", .vstr gi.2)], pHooks, []⟩ pdict []
        let mdict2 := eraseKey "properties" mdict
        .ok (storePropsAndMeasurement mHooks gi.1 none device_properties mdict2)
      | some _ => .error .attributeError
      | none =>
        let fetched := GetLatestDeviceProperties pHooks gi.1 devId
        .ok (storePropsAndMeasurement mHooks fetched.1 fetched.2.1 fetched.2.2 mdict)
    | some _ => .error .typeError
  | _ => .error .typeError

/-- An inbound HTTP request: its method and its body after
`json.loads` (JSON text parsing is a platform boundary). -/
structure HttpRequest where
  method : String
  parsedBody : PVal

/-- The response written by `PostMeasurement`: status (the platform
default 200 on success), content type, body text. -/
structure HttpResponse where
  status : Nat
  contentType : String
  body : String
deriving DecidableEq, Repr

/-- Python `str.lower()` on one character (ASCII). -/
def pyCharLower (c : Char) : Char :=
  if 65 ≤ c.toNat ∧ c.toNat ≤ 90 then Char.ofNat (c.toNat + 32) else c

/-- Python `str.lower()` (the request method is ASCII). -/
def pyLower (s : String) : String := String.mk (s.data.map pyCharLower)

/-- Python iteration over the parsed body: a JSON array yields its
items, a mapping its keys, a string its characters; anything else
raises `TypeError`. -/
def pyIter : PVal → Except HandlerError (List PVal)
  | .vlist l => .ok l
  | .vdict d => .ok (d.map (fun kv => PVal.vstr kv.1))
  | .vstr s => .ok (s.data.map (fun c => PVal.vstr (String.mk [c])))
  | _ => .error .typeError

/-- Handler `PostMeasurement` from `controllers/measurement.py`: reject
non-POST methods with `BadRequest`, process the entries of the body in
order (any entry failure propagates, leaving earlier writes in place),
and on full success respond with `application/json` body
`'\x7b"success": true\x7d'`. -/
def PostMeasurement (mHooks pHooks : List String) (req : HttpRequest) (ds : Datastore) :
    Except HandlerError (Datastore × HttpResponse) :=
  if pyLower req.method ≠ "post" then .error (.badRequest "Not a POST request.")
  else
    match pyIter req.parsedBody with
    | .error e => .error e
    | .ok entries =>
      match entries.foldlM (processEntry mHooks pHooks) ds with
      | .error e => .error e
      | .ok finalDs =>
        .ok (finalDs, ⟨200, "application/json", "\x7b\"success\": true\x7d"⟩)

/-- A value placed in the template-argument mapping of the detail page:
a string, or the measurement object (possibly absent). -/
inductive TVal where
  | str (s : String)
  | meas (m : Option StoredMeasurement)

/-- The output of `template.render(path, template_args)`, written to
the response body. -/
structure TemplateRender where
  path : String
  args : List (String × TVal)

/-- Call `model.Measurement.get_by_id(i)`. -/
def Measurement_get_by_id (ds : Datastore) (i : Int) : Option StoredMeasurement :=
  ds.measurements.find? (fun m => (m.id : Int) == i)

/-- Python `int()` on a string: an optional sign followed by decimal digits
(surrounding whitespace tolerance is not exercised by these claims). -/
def pyIntOfString (s : String) : Option Int :=
  match s.data with
  | '-' :: rest => (pyIntDigits rest).map (fun n => -(n : Int))
  | '+' :: rest => (pyIntDigits rest).map (fun n => (n : Int))
  | l => (pyIntDigits l).map (fun n => (n : Int))

/-- Handler `MeasurementDetail` from `controllers/measurement.py`.  The `try`
body parses `id`, looks the measurement up, and on a missing record
builds an error argument set and returns early; the `finally` block
then unconditionally rebuilds `template_args` — discarding whatever the
body computed — and renders the detail template.  The current user's
email and the logout URL come from the platform identity service. -/
def MeasurementDetail (ds : Datastore) (measid : String)
    (userEmail logoutLink : String) : Except HandlerError TemplateRender :=
  match pyIntOfString measid with
  | none => .error .valueError
  | some i =>
    let measurement := Measurement_get_by_id ds i
    let _discarded_error_args : Option (List (String × TVal)) :=
      if measurement.isNone then
        some [("error", .str ("Cannot get measurement " ++ measid)),
              ("user", .str userEmail),
              ("logout_link", .str logoutLink)]
      else none
    let template_args : List (String × TVal) :=
      [("id", .str measid),
       ("measurement", .meas measurement),
       ("user", .str userEmail),
       ("logout_link", .str logoutLink)]
    .ok ⟨"templates/measurementdetail.html", template_args⟩

/-- The fractional-microsecond computation as the specification words
it: take the fractional digits between the first `.` and the trailing
`Z`, right-pad them with `0` characters up to six digits, and read them
as an integer (zero when no fractional segment exists). -/
def specFracMicroseconds (s : String) : Nat :=
  match splitDot s.data with
  | [_, b] => (pyIntDigits (rightPad6 b.dropLast)).getD 0
  | _ => 0

/-! Section: Lemmas about digits and padding -/

theorem isDig_digChar_mod (n : Nat) : isDig (digChar (n % 10)) = true := by
  have h : n % 10 < 10 := Nat.mod_lt _ (by omega)
  revert h
  generalize n % 10 = m
  intro h
  interval_cases m <;> decide

theorem d2n_digChar_mod (n : Nat) : d2n (digChar (n % 10)) = n % 10 := by
  have h : n % 10 < 10 := Nat.mod_lt _ (by omega)
  revert h
  generalize n % 10 = m
  intro h
  interval_cases m <;> decide

theorem digChar_mod_ne_dot (n : Nat) : digChar (n % 10) ≠ '.' := by
  have h : n % 10 < 10 := Nat.mod_lt _ (by omega)
  revert h
  generalize n % 10 = m
  intro h
  interval_cases m <;> decide

theorem dot_not_mem_pad2 (n : Nat) : '.' ∉ pad2 n := by
  simp only [pad2, List.mem_cons, List.not_mem_nil, or_false]
  intro h
  rcases h with h | h <;> exact absurd h.symm (digChar_mod_ne_dot _)

theorem dot_not_mem_pad4 (n : Nat) : '.' ∉ pad4 n := by
  simp only [pad4, List.mem_cons, List.not_mem_nil, or_false]
  intro h
  rcases h with h | h | h | h <;> exact absurd h.symm (digChar_mod_ne_dot _)

theorem dot_not_mem_pad6 (n : Nat) : '.' ∉ pad6 n := by
  simp only [pad6, List.mem_cons, List.not_mem_nil, or_false]
  intro h
  rcases h with h | h | h | h | h | h <;> exact absurd h.symm (digChar_mod_ne_dot _)

theorem dot_not_mem_isoDatePart (y mo d h mi s : Nat) :
    '.' ∉ isoDatePart y mo d h mi s := by
  intro hc
  have h4 := dot_not_mem_pad4 y
  have ha := dot_not_mem_pad2 mo
  have hb := dot_not_mem_pad2 d
  have hcc := dot_not_mem_pad2 h
  have hdd := dot_not_mem_pad2 mi
  have he := dot_not_mem_pad2 s
  simp only [isoDatePart, List.mem_append, List.mem_cons, h4, ha, hb, hcc, hdd, he,
    or_false, false_or] at hc
  exact absurd hc (by decide)

/-! Section: Lemmas about `splitDot` -/

theorem splitDot_ne_nil (l : List Char) : splitDot l ≠ [] := by
  cases l with
  | nil => simp [splitDot]
  | cons c rest =>
    simp only [splitDot]
    cases splitDot rest with
    | nil => simp
    | cons h t => by_cases hc : c = '.' <;> simp [hc]

theorem splitDot_no_dot (l : List Char) (h : '.' ∉ l) : splitDot l = [l] := by
  induction l with
  | nil => rfl
  | cons c rest ih =>
    have hc : c ≠ '.' := fun e => h (by simp [e])
    have hr : '.' ∉ rest := fun m => h (List.mem_cons_of_mem _ m)
    simp [splitDot, ih hr, hc]

theorem splitDot_cons_dot (b : List Char) : splitDot ('.' :: b) = [] :: splitDot b := by
  simp only [splitDot]
  cases hb : splitDot b with
  | nil => exact absurd hb (splitDot_ne_nil b)
  | cons h t => simp

theorem splitDot_dot_append (a b : List Char) (h : '.' ∉ a) :
    splitDot (a ++ '.' :: b) = a :: splitDot b := by
  induction a with
  | nil => simpa using splitDot_cons_dot b
  | cons c rest ih =>
    have hc : c ≠ '.' := fun e => h (by simp [e])
    have hr : '.' ∉ rest := fun m => h (List.mem_cons_of_mem _ m)
    have hstep : splitDot (c :: (rest ++ '.' :: b)) =
        match splitDot (rest ++ '.' :: b) with
        | [] => [[]]
        | hd :: t => if c = '.' then [] :: hd :: t else (c :: hd) :: t := rfl
    rw [List.cons_append, hstep, ih hr]
    simp [hc]

/-! Section: Parsing the formatter's own output -/

theorem daysInMonth_le_31 (y m : Nat) : daysInMonth y m ≤ 31 := by
  unfold daysInMonth
  split <;> [skip; split] <;> first | omega | (split <;> omega)

theorem strptime_isoDatePart (y mo d h mi s : Nat)
    (hmo1 : 1 ≤ mo) (hmo2 : mo ≤ 12) (hd1 : 1 ≤ d) (hd2 : d ≤ 31)
    (hh : h ≤ 23) (hmi : mi ≤ 59) (hs : s ≤ 59) :
    strptimeYmdHMS (isoDatePart y mo d h mi s) = some (y % 10000, mo, d, h, mi, s) := by
  simp only [isoDatePart, pad4, pad2, List.cons_append, List.nil_append, strptimeYmdHMS,
    isDig_digChar_mod, Bool.and_self, Bool.true_and, d2n_digChar_mod]
  have emo : mo / 10 % 10 * 10 + mo % 10 = mo := by omega
  have ed : d / 10 % 10 * 10 + d % 10 = d := by omega
  have eh : h / 10 % 10 * 10 + h % 10 = h := by omega
  have emi : mi / 10 % 10 * 10 + mi % 10 = mi := by omega
  have es : s / 10 % 10 * 10 + s % 10 = s := by omega
  have ey : ((y / 1000 % 10 * 10 + y / 100 % 10) * 10 + y / 10 % 10) * 10 + y % 10 =
      y % 10000 := by omega
  rw [emo, ed, eh, emi, es, ey]
  have hcond : 1 ≤ mo ∧ mo ≤ 12 ∧ 1 ≤ d ∧ d ≤ 31 ∧ h ≤ 23 ∧ mi ≤ 59 ∧ s ≤ 61 := by omega
  simp [hcond.1, hcond.2.1, hcond.2.2.1, hcond.2.2.2.1, hcond.2.2.2.2.1,
    hcond.2.2.2.2.2.1, hcond.2.2.2.2.2.2]

theorem pyIntDigits_pad6 (u : Nat) : pyIntDigits (pad6 u) = some (u % 1000000) := by
  simp only [pyIntDigits, pad6, List.isEmpty_cons, List.all_cons, List.all_nil,
    isDig_digChar_mod, Bool.and_self, Bool.true_and, Bool.and_true, List.foldl,
    d2n_digChar_mod, if_false, Bool.false_eq_true, ite_false, if_true]
  congr 1
  omega

theorem getLast?_append_singleton (l : List Char) (a : Char) :
    (l ++ [a]).getLast? = some a := by
  induction l with
  | nil => rfl
  | cons c rest ih => rw [List.cons_append, List.getLast?_cons, ih]; rfl

/-- If `stringToTimeGo` succeeds, the microsecond field of its result
is the zero-right-padded fractional string read as an integer. -/
theorem stringToTimeGo_microsecond (strtime extra : List Char) (dt : PyDateTime)
    (h : stringToTimeGo strtime extra = .ok dt) :
    dt.microsecond = (pyIntDigits (rightPad6 extra.dropLast)).getD 0 := by
  unfold stringToTimeGo at h
  rcases hs : strptimeYmdHMS strtime with _ | ⟨y, mo, d, hh, mi, ss⟩ <;> rw [hs] at h
  · exact absurd h (by simp)
  dsimp only at h
  rcases hc : pyDatetimeNew y mo d hh mi ss with _ | dt0 <;> rw [hc] at h
  · exact absurd h (by simp)
  dsimp only at h
  rcases hg : extra.getLast? with _ | c <;> rw [hg] at h
  · exact absurd h (by simp)
  dsimp only at h
  by_cases hz : c ≠ 'Z'
  · rw [if_pos hz] at h
    exact absurd h (by simp)
  rw [if_neg hz] at h
  rcases hp : pyIntDigits (rightPad6 extra.dropLast) with _ | usec <;> rw [hp] at h
  · exact absurd h (by simp)
  dsimp only at h
  by_cases hle : usec ≤ 999999
  · rw [if_pos hle] at h
    simp only [Except.ok.injEq] at h
    rw [← h]
    rfl
  · rw [if_neg hle] at h
    exact absurd h (by simp)

/-- C3: for every timezone-unaware time value with microsecond
precision that the platform `datetime` library can represent, parsing
the formatter's output reproduces the value exactly, including when
the microsecond component is zero and the formatted string carries no
fractional-seconds segment. -/
theorem stringToTime_timeToString_roundtrip (t : PyDateTime) (h : t.valid) :
    StringToTime (TimeToString t) = .ok t := by
  obtain ⟨y, mo, d, hh, mi, ss, us⟩ := t
  dsimp only [PyDateTime.valid] at h
  obtain ⟨h1, h2, h3, h4, h5, h6, h7, h8, h9, h10⟩ := h
  have hd31 : d ≤ 31 := le_trans h6 (daysInMonth_le_31 y mo)
  have hstrp : strptimeYmdHMS (isoDatePart y mo d hh mi ss) = some (y, mo, d, hh, mi, ss) := by
    have := strptime_isoDatePart y mo d hh mi ss h3 h4 h5 hd31 h7 h8 h9
    rwa [Nat.mod_eq_of_lt (by omega)] at this
  have hctor : pyDatetimeNew y mo d hh mi ss = some ⟨y, mo, d, hh, mi, ss, 0⟩ := by
    unfold pyDatetimeNew
    rw [if_pos ⟨h1, h2, h3, h4, h5, h6, h7, h8, h9⟩]
  show stringToTimeCore (isoformat ⟨y, mo, d, hh, mi, ss, us⟩ ++ ['Z']) = _
  dsimp only [isoformat]
  by_cases hu : us = 0
  · subst hu
    have hrw : (if (0 : Nat) = 0 then ([] : List Char) else '.' :: pad6 0) = [] := if_pos rfl
    rw [hrw, List.append_nil]
    have hnd : '.' ∉ isoDatePart y mo d hh mi ss ++ ['Z'] := by
      intro hm
      rcases List.mem_append.1 hm with hm | hm
      · exact dot_not_mem_isoDatePart y mo d hh mi ss hm
      · simp at hm
    have hsplit := splitDot_no_dot _ hnd
    have hdrop : (isoDatePart y mo d hh mi ss ++ ['Z']).dropLast = isoDatePart y mo d hh mi ss := by
      simp
    have hpi : pyIntDigits (rightPad6 ([] : List Char)) = some 0 := rfl
    simp [stringToTimeCore, stringToTimeGo, hsplit, hdrop, hpi]
    rw [hstrp]
    simp [hctor]
  · have hrw : (if us = 0 then ([] : List Char) else '.' :: pad6 us) = '.' :: pad6 us :=
      if_neg hu
    rw [hrw]
    have hassoc : (isoDatePart y mo d hh mi ss ++ '.' :: pad6 us) ++ ['Z'] =
        isoDatePart y mo d hh mi ss ++ '.' :: (pad6 us ++ ['Z']) := by
      simp
    rw [hassoc]
    have hndB : '.' ∉ pad6 us ++ ['Z'] := by
      intro hm
      rcases List.mem_append.1 hm with hm | hm
      · exact dot_not_mem_pad6 us hm
      · simp at hm
    have hsplit : splitDot (isoDatePart y mo d hh mi ss ++ '.' :: (pad6 us ++ ['Z'])) =
        [isoDatePart y mo d hh mi ss, pad6 us ++ ['Z']] := by
      rw [splitDot_dot_append _ _ (dot_not_mem_isoDatePart y mo d hh mi ss),
        splitDot_no_dot _ hndB]
    have hlast : (pad6 us ++ ['Z']).getLast? = some 'Z' := getLast?_append_singleton _ _
    have hdrop : (pad6 us ++ ['Z']).dropLast = pad6 us := by simp
    have hlen : (pad6 us).length = 6 := by simp [pad6]
    have hpad : rightPad6 (pad6 us) = pad6 us := by simp [rightPad6, hlen]
    have hpi : pyIntDigits (pad6 us) = some us := by
      rw [pyIntDigits_pad6, Nat.mod_eq_of_lt (by omega)]
    simp [stringToTimeCore, stringToTimeGo, hsplit, hlast, hdrop, hpad, hpi, h10]
    rw [hstrp]
    simp [hctor]

/-- C3 witness: the round trip at the concrete value
2021-01-01T00:00:00 (whose microsecond component is zero, so the
formatted string carries no fractional-seconds segment). -/
theorem stringToTime_timeToString_roundtrip_witness :
    (⟨2021, 1, 1, 0, 0, 0, 0⟩ : PyDateTime).valid ∧
    StringToTime (TimeToString ⟨2021, 1, 1, 0, 0, 0, 0⟩) = .ok ⟨2021, 1, 1, 0, 0, 0, 0⟩ :=
  ⟨by decide, stringToTime_timeToString_roundtrip ⟨2021, 1, 1, 0, 0, 0, 0⟩ (by decide)⟩

/-- C4 counterexample: the input `2021-01-01T00:00:00X` has no
fractional dot and does not end in `Z`, yet `StringToTime` accepts it
(the bare `except` branch strips the final character unconditionally
and hard-codes `extra = 'Z'`), so it fails with neither InvalidFormat
nor a parse error. -/
theorem stringToTime_non_z_accepted :
    StringToTime "2021-01-01T00:00:00X" = .ok ⟨2021, 1, 1, 0, 0, 0, 0⟩ ∧
    "2021-01-01T00:00:00X".data.getLast? = some 'X' :=
  ⟨rfl, rfl⟩

/-- C4 (amended): the missing-`Z` check only governs inputs whose
`split('.')` yields exactly two parts; for those, once the whole-second
portion parses under the fixed layout into a `datetime` value, a
nonempty fractional segment not ending in `'Z'` fails with
InvalidFormat ("Timestring does not end in Z").  Inputs without a dot
never reach the check: their final character is stripped
unconditionally. -/
theorem stringToTime_dot_not_z_invalidFormat (s : String) (a b : List Char)
    (y mo d hh mi ss : Nat) (dt : PyDateTime)
    (hsplit : splitDot s.data = [a, b])
    (hstrp : strptimeYmdHMS a = some (y, mo, d, hh, mi, ss))
    (hctor : pyDatetimeNew y mo d hh mi ss = some dt)
    (hne : b ≠ [])
    (hz : b.getLast? ≠ some 'Z') :
    StringToTime s = .error .invalidFormat := by
  unfold StringToTime stringToTimeCore
  rw [hsplit]
  dsimp only
  unfold stringToTimeGo
  rw [hstrp]
  dsimp only
  rw [hctor]
  dsimp only
  rcases hg : b.getLast? with _ | c
  · rw [List.getLast?_eq_none_iff] at hg
    exact absurd hg hne
  · have hcz : c ≠ 'Z' := fun e => hz (by rw [hg, e])
    dsimp only
    rw [if_pos hcz]

/-- C4 witness: the inputs of the amended theorem instantiated at
`2021-01-01T00:00:00.5`, which fails with InvalidFormat. -/
theorem stringToTime_dot_not_z_invalidFormat_witness :
    StringToTime "2021-01-01T00:00:00.5" = .error .invalidFormat :=
  stringToTime_dot_not_z_invalidFormat "2021-01-01T00:00:00.5"
    "2021-01-01T00:00:00".data ['5'] 2021 1 1 0 0 0 ⟨2021, 1, 1, 0, 0, 0, 0⟩
    rfl rfl rfl (by decide) (by decide)

/-- C5: for every accepted input, the microsecond component of the
result is the fractional digits before the trailing `Z`, right-padded
with `0` characters up to six digits and read as an integer
(left-aligned, no scaling). -/
theorem stringToTime_microsecond_spec (s : String) (dt : PyDateTime)
    (h : StringToTime s = .ok dt) :
    dt.microsecond = specFracMicroseconds s := by
  unfold StringToTime stringToTimeCore at h
  unfold specFracMicroseconds
  rcases hs : splitDot s.data with _ | ⟨a, rest⟩
  · exact absurd hs (splitDot_ne_nil _)
  rcases rest with _ | ⟨b, rest2⟩
  · rw [hs] at h
    dsimp only at h
    rw [stringToTimeGo_microsecond _ _ _ h]
    rfl
  rcases rest2 with _ | ⟨c2, rest3⟩
  · rw [hs] at h
    dsimp only at h
    rw [stringToTimeGo_microsecond _ _ _ h]
  · rw [hs] at h
    dsimp only at h
    rw [stringToTimeGo_microsecond _ _ _ h]
    rfl

/-- C5 witness: parsing `2021-01-01T00:00:00.5Z` yields microsecond
component 500000, and that agrees with the padded-fraction reading. -/
theorem stringToTime_microsecond_spec_witness :
    StringToTime "2021-01-01T00:00:00.5Z" = .ok ⟨2021, 1, 1, 0, 0, 0, 500000⟩ ∧
    (⟨2021, 1, 1, 0, 0, 0, 500000⟩ : PyDateTime).microsecond =
      specFracMicroseconds "2021-01-01T00:00:00.5Z" :=
  ⟨rfl, stringToTime_microsecond_spec "2021-01-01T00:00:00.5Z" ⟨2021, 1, 1, 0, 0, 0, 500000⟩ rfl⟩

/-! Section: Encoding lemmas -/

theorem trSpecAux (n : Nat) :
    (∀ v : PVal, sizeOf v ≤ n → ∀ inc exc key,
      convertValueTr inc exc key v = (convertValue inc exc key v).map (fun e => (e, v))) ∧
    (∀ l : List (String × PVal), sizeOf l ≤ n → ∀ inc exc,
      convertFieldsTr inc exc l = (convertFields inc exc l).map (fun d => (d, l))) := by
  induction n using Nat.strong_induction_on with
  | _ n ih =>
    constructor
    · intro v hv inc exc key
      cases v with
      | vmodel props =>
        have hlt : sizeOf props < sizeOf (PVal.vmodel props) := by simp
        have hQ := (ih (sizeOf props) (lt_of_lt_of_le hlt hv)).2 props le_rfl inc exc
        simp only [convertValueTr, convertValue, hQ]
        cases convertFields inc exc props <;> simp [Except.map]
      | vnone => simp [convertValueTr, convertValue, Except.map]
      | vint a => simp [convertValueTr, convertValue, Except.map]
      | vfloat a => simp [convertValueTr, convertValue, Except.map]
      | vbool a => simp [convertValueTr, convertValue, Except.map]
      | vstr a => simp [convertValueTr, convertValue, Except.map]
      | vdict a => simp [convertValueTr, convertValue, Except.map]
      | vlist a => simp [convertValueTr, convertValue, Except.map]
      | vdate a => simp [convertValueTr, convertValue, Except.map]
      | vgeopt a b => simp [convertValueTr, convertValue, Except.map]
      | vuser a => simp [convertValueTr, convertValue, Except.map]
      | vuserprop a => simp [convertValueTr, convertValue, Except.map]
      | vother a => simp [convertValueTr, convertValue, Except.map]
    · intro l hl inc exc
      cases l with
      | nil => simp [convertFieldsTr, convertFields, Except.map]
      | cons kv rest =>
        obtain ⟨k, v⟩ := kv
        have hv : sizeOf v < sizeOf ((k, v) :: rest) := by simp; omega
        have hr : sizeOf rest < sizeOf ((k, v) :: rest) := by simp; try omega
        have hP := (ih (sizeOf v) (lt_of_lt_of_le hv hl)).1 v le_rfl inc exc k
        have hQ := (ih (sizeOf rest) (lt_of_lt_of_le hr hl)).2 rest le_rfl inc exc
        cases hi : skipByInclude inc k with
        | true =>
          simp only [convertFieldsTr, convertFields, hi, hQ]
          cases convertFields inc exc rest <;> simp [Except.map]
        | false =>
          cases he : skipByExclude exc k with
          | true =>
            simp only [convertFieldsTr, convertFields, hi, he, hQ]
            cases convertFields inc exc rest <;> simp [Except.map]
          | false =>
            simp only [convertFieldsTr, convertFields, hi, he, hP, hQ]
            cases convertValue inc exc k v with
            | error e => simp [Except.map]
            | ok ev =>
              cases convertFields inc exc rest <;> simp [Except.map]

/-- C10: `ConvertToDict` is read-only on its input: the state-threaded
rendering of the conversion agrees with `ConvertToDict` and returns
the model's property map — including every nested model reached
through the recursive case — exactly as it was given. -/
theorem convertToDict_readonly (m : PyModel) (inc exc : Option (List String)) :
    ConvertToDictTr m inc exc = (ConvertToDict m inc exc).map (fun d => (d, m)) :=
  (trSpecAux (sizeOf m)).2 m le_rfl inc exc

/-- C7: `ConvertToJson` never consults its `model` argument — it
delegates with the include/exclude lists in the model's position — so
its result is independent of the model and is in fact always the
`AttributeError` arising from calling `.properties()` on a non-model
value; it can never produce the JSON encoding of the given object. -/
theorem convertToJson_ignores_model (m m' : PyModel) (inc exc : Option (List String)) :
    ConvertToJson m inc exc = ConvertToJson m' inc exc ∧
    ConvertToJson m inc exc = .error .attributeError := by
  cases inc <;> simp [ConvertToJson, pyOptList]

/-- C8: a field whose runtime value is a platform user-identity value
(`users.User`) does not satisfy `isinstance(value, db.UserProperty)` —
that tests the property-descriptor class — so instead of being mapped
to the user's email address it falls into the `else` branch and fails
with the Unencodable condition, here at the concrete field `account`
holding the user `user@example.com`. -/
theorem convertToDict_user_value_unencodable :
    ConvertToDict [("account", PVal.vuser "user@example.com")] none none =
      .error (.cannotEncode "account") := by
  simp [ConvertToDict, convertFields, convertValue, skipByInclude, skipByExclude]

/-! Section: Decoding lemmas -/

theorem convertFromDict_characterization (o : DObj) (input : List (String × PVal))
    (excl : List String) :
    (ConvertFromDict o input excl).hooks = o.hooks ∧
    (ConvertFromDict o input excl).hookCalls =
      o.hookCalls ++ input.filter (fun kv => decide (kv.1 ∉ excl) && decide (kv.1 ∈ o.hooks)) ∧
    (ConvertFromDict o input excl).attrs =
      (input.filter (fun kv => decide (kv.1 ∉ excl) && decide (kv.1 ∉ o.hooks))).foldl
        (fun a kv => setattrList a kv.1 kv.2) o.attrs := by
  induction input generalizing o with
  | nil => simp [ConvertFromDict]
  | cons kv rest ih =>
    obtain ⟨k, v⟩ := kv
    by_cases he : k ∈ excl
    · have hstep : ConvertFromDict o ((k, v) :: rest) excl = ConvertFromDict o rest excl := by
        simp [ConvertFromDict, he]
      rw [hstep]
      simpa [he] using ih o
    · by_cases hh : k ∈ o.hooks
      · have hstep : ConvertFromDict o ((k, v) :: rest) excl =
            ConvertFromDict ⟨o.attrs, o.hooks, o.hookCalls ++ [(k, v)]⟩ rest excl := by
          simp [ConvertFromDict, he, hh]
        rw [hstep]
        obtain ⟨i1, i2, i3⟩ := ih ⟨o.attrs, o.hooks, o.hookCalls ++ [(k, v)]⟩
        refine ⟨i1, ?_, ?_⟩
        · rw [i2]
          simp [he, hh]
        · rw [i3]
          simp [he, hh]
      · have hstep : ConvertFromDict o ((k, v) :: rest) excl =
            ConvertFromDict ⟨setattrList o.attrs k v, o.hooks, o.hookCalls⟩ rest excl := by
          simp [ConvertFromDict, he, hh]
        rw [hstep]
        obtain ⟨i1, i2, i3⟩ := ih ⟨setattrList o.attrs k v, o.hooks, o.hookCalls⟩
        refine ⟨i1, ?_, ?_⟩
        · rw [i2]
          simp [he, hh]
        · rw [i3]
          simp [he, hh]

/-- C9: for every key of the input mapping not in the deny-list, the
decode hook `JSON_DECODE_k` takes precedence — such keys are recorded
as hook invocations with their raw values, in order, and are never
assigned directly — while every other retained key is written to the
object's attribute namespace verbatim via `setattr`; the hook table
itself is untouched.  In particular decoding a mapping holding `x ↦ 5`
into an object with a hook for `x` invokes that hook with `5`. -/
theorem convertFromDict_hook_precedence (o : DObj) (input : List (String × PVal))
    (excl : List String) :
    (ConvertFromDict o input excl).hooks = o.hooks ∧
    (ConvertFromDict o input excl).hookCalls =
      o.hookCalls ++ input.filter (fun kv => decide (kv.1 ∉ excl) && decide (kv.1 ∈ o.hooks)) ∧
    (ConvertFromDict o input excl).attrs =
      (input.filter (fun kv => decide (kv.1 ∉ excl) && decide (kv.1 ∉ o.hooks))).foldl
        (fun a kv => setattrList a kv.1 kv.2) o.attrs :=
  convertFromDict_characterization o input excl

/-! Section: Attribute-namespace lemmas -/

theorem lookupKey_setattr_ne (attrs : List (String × PVal)) (k k' : String) (v : PVal)
    (h : k' ≠ k) : lookupKey k (setattrList attrs k' v) = lookupKey k attrs := by
  induction attrs with
  | nil => simp [setattrList, lookupKey, h]
  | cons kv rest ih =>
    obtain ⟨k0, v0⟩ := kv
    by_cases h0 : k0 = k'
    · subst h0
      simp [setattrList, lookupKey, h]
    · simp only [setattrList, h0, if_false]
      by_cases hk : k0 = k <;> simp [lookupKey, hk, ih]

theorem lookupKey_foldl_setattr (entries : List (String × PVal))
    (a : List (String × PVal)) (k : String) (h : k ∉ entries.map Prod.fst) :
    lookupKey k (entries.foldl (fun acc kv => setattrList acc kv.1 kv.2) a) =
      lookupKey k a := by
  induction entries generalizing a with
  | nil => rfl
  | cons kv rest ih =>
    have h1 : kv.1 ≠ k := fun e => h (by simp [← e])
    have h2 : k ∉ rest.map Prod.fst := fun m => h (by simp [m])
    simp only [List.foldl]
    rw [ih _ h2, lookupKey_setattr_ne _ _ _ _ h1]

theorem lookupKey_eq_none_of_not_mem (k : String) (l : List (String × PVal))
    (h : k ∉ l.map Prod.fst) : lookupKey k l = none := by
  induction l with
  | nil => rfl
  | cons kv rest ih =>
    have h1 : kv.1 ≠ k := fun e => h (by simp [← e])
    have h2 : k ∉ rest.map Prod.fst := fun m => h (by simp [m])
    obtain ⟨k0, v0⟩ := kv
    simp only [lookupKey]
    rw [if_neg h1, ih h2]

theorem not_mem_of_lookupKey_eq_none (k : String) (l : List (String × PVal))
    (h : lookupKey k l = none) : k ∉ l.map Prod.fst := by
  induction l with
  | nil => simp
  | cons kv rest ih =>
    obtain ⟨k0, v0⟩ := kv
    simp only [lookupKey] at h
    by_cases h0 : k0 = k
    · rw [if_pos h0] at h
      exact absurd h (by simp)
    · rw [if_neg h0] at h
      simp only [List.map_cons, List.mem_cons]
      rintro (e | m)
      · exact h0 e.symm
      · exact ih h m

theorem convertFromDict_attr_frame (o : DObj) (input : List (String × PVal))
    (excl : List String) (k : String) (h : k ∉ input.map Prod.fst) :
    lookupKey k (ConvertFromDict o input excl).attrs = lookupKey k o.attrs := by
  obtain ⟨-, -, h3⟩ := convertFromDict_characterization o input excl
  rw [h3, lookupKey_foldl_setattr]
  intro hm
  rcases List.mem_map.1 hm with ⟨kv, hkv, hfst⟩
  exact h (List.mem_map.2 ⟨kv, List.mem_of_mem_filter hkv, hfst⟩)

theorem convertFromDict_hookCalls_keys (o : DObj) (input : List (String × PVal))
    (excl : List String) (k : String)
    (hk : k ∉ o.hookCalls.map Prod.fst) (hi : k ∉ input.map Prod.fst) :
    k ∉ (ConvertFromDict o input excl).hookCalls.map Prod.fst := by
  obtain ⟨-, h2, -⟩ := convertFromDict_characterization o input excl
  rw [h2]
  intro hm
  rcases List.mem_map.1 hm with ⟨kv, hkv, hfst⟩
  rcases List.mem_append.1 hkv with hkv | hkv
  · exact hk (List.mem_map.2 ⟨kv, hkv, hfst⟩)
  · exact hi (List.mem_map.2 ⟨kv, List.mem_of_mem_filter hkv, hfst⟩)

theorem eraseKey_not_mem (k : String) (d : List (String × PVal)) :
    k ∉ (eraseKey k d).map Prod.fst := by
  intro hm
  rcases List.mem_map.1 hm with ⟨kv, hkv, hfst⟩
  rcases List.mem_filter.1 hkv with ⟨-, hne⟩
  simp only [decide_eq_true_eq] at hne
  exact hne hfst

/-! Section: Controller lemmas -/

theorem DeviceProperties_put_measurements (ds : Datastore) (idOpt : Option Nat) (obj : DObj) :
    (DeviceProperties_put ds idOpt obj).1.measurements = ds.measurements := by
  cases idOpt <;> rfl

theorem DeviceProperties_put_nextMeasId (ds : Datastore) (idOpt : Option Nat) (obj : DObj) :
    (DeviceProperties_put ds idOpt obj).1.nextMeasId = ds.nextMeasId := by
  cases idOpt <;> rfl

theorem storePropsAndMeasurement_measurements (mHooks : List String) (ds : Datastore)
    (propsIdOpt : Option Nat) (propsObj : DObj) (mdict : List (String × PVal)) :
    (storePropsAndMeasurement mHooks ds propsIdOpt propsObj mdict).measurements =
      ds.measurements ++
        [⟨ds.nextMeasId, ConvertFromDict ⟨[], mHooks, []⟩ mdict [],
          (DeviceProperties_put ds propsIdOpt propsObj).2⟩] := by
  unfold storePropsAndMeasurement Measurement_put
  dsimp only
  rw [DeviceProperties_put_measurements, DeviceProperties_put_nextMeasId]

theorem DeviceInfo_get_or_insert_measurements (ds : Datastore) (k : String) :
    (DeviceInfo_get_or_insert ds k).1.measurements = ds.measurements := by
  unfold DeviceInfo_get_or_insert
  split <;> rfl

theorem GetLatestDeviceProperties_measurements (pHooks : List String) (ds : Datastore)
    (devKey : String) :
    (GetLatestDeviceProperties pHooks ds devKey).1.measurements = ds.measurements := by
  unfold GetLatestDeviceProperties
  split <;> rfl

/-- Every measurement stored by one loop iteration is either
pre-existing or was built from an entry mapping with no `properties`
key, hence carries neither a `properties` attribute nor a `properties`
hook invocation. -/
theorem processEntry_strips (mHooks pHooks : List String) (ds : Datastore) (entry : PVal)
    (ds2 : Datastore) (h : processEntry mHooks pHooks ds entry = .ok ds2) :
    ∀ m ∈ ds2.measurements, m ∈ ds.measurements ∨
      (lookupKey "properties" m.obj.attrs = none ∧
       "properties" ∉ m.obj.hookCalls.map Prod.fst) := by
  cases entry with
  | vdict mdict =>
    unfold processEntry at h
    dsimp only at h
    rcases hd : lookupKey "device_id" mdict with _ | dv <;> rw [hd] at h
    · exact absurd h (by simp)
    cases dv with
    | vstr devId =>
      dsimp only at h
      rcases hp : lookupKey "properties" mdict with _ | pv <;> rw [hp] at h
      · -- no `properties` key in the entry
        dsimp only at h
        simp only [Except.ok.injEq] at h
        subst h
        intro m hm
        rw [storePropsAndMeasurement_measurements, GetLatestDeviceProperties_measurements,
          DeviceInfo_get_or_insert_measurements] at hm
        rcases List.mem_append.1 hm with hm | hm
        · exact Or.inl hm
        · right
          simp only [List.mem_singleton] at hm
          subst hm
          have hnm : "properties" ∉ mdict.map Prod.fst :=
            not_mem_of_lookupKey_eq_none _ _ hp
          refine ⟨?_, ?_⟩
          · rw [convertFromDict_attr_frame _ _ _ _ hnm]
            rfl
          · exact convertFromDict_hookCalls_keys _ _ _ _ (by simp) hnm
      cases pv with
      | vdict pdict =>
        dsimp only at h
        simp only [Except.ok.injEq] at h
        subst h
        intro m hm
        rw [storePropsAndMeasurement_measurements,
          DeviceInfo_get_or_insert_measurements] at hm
        rcases List.mem_append.1 hm with hm | hm
        · exact Or.inl hm
        · right
          simp only [List.mem_singleton] at hm
          subst hm
          have hnm : "properties" ∉ (eraseKey "properties" mdict).map Prod.fst :=
            eraseKey_not_mem _ _
          refine ⟨?_, ?_⟩
          · rw [convertFromDict_attr_frame _ _ _ _ hnm]
            rfl
          · exact convertFromDict_hookCalls_keys _ _ _ _ (by simp) hnm
      | vnone => exact absurd h (by simp)
      | vint a => exact absurd h (by simp)
      | vfloat a => exact absurd h (by simp)
      | vbool a => exact absurd h (by simp)
      | vstr a => exact absurd h (by simp)
      | vlist a => exact absurd h (by simp)
      | vdate a => exact absurd h (by simp)
      | vgeopt a b => exact absurd h (by simp)
      | vmodel a => exact absurd h (by simp)
      | vuser a => exact absurd h (by simp)
      | vuserprop a => exact absurd h (by simp)
      | vother a => exact absurd h (by simp)
    | vnone => exact absurd h (by simp)
    | vint a => exact absurd h (by simp)
    | vfloat a => exact absurd h (by simp)
    | vbool a => exact absurd h (by simp)
    | vdict a => exact absurd h (by simp)
    | vlist a => exact absurd h (by simp)
    | vdate a => exact absurd h (by simp)
    | vgeopt a b => exact absurd h (by simp)
    | vmodel a => exact absurd h (by simp)
    | vuser a => exact absurd h (by simp)
    | vuserprop a => exact absurd h (by simp)
    | vother a => exact absurd h (by simp)
  | vnone => exact absurd h (by simp [processEntry])
  | vint a => exact absurd h (by simp [processEntry])
  | vfloat a => exact absurd h (by simp [processEntry])
  | vbool a => exact absurd h (by simp [processEntry])
  | vstr a => exact absurd h (by simp [processEntry])
  | vlist a => exact absurd h (by simp [processEntry])
  | vdate a => exact absurd h (by simp [processEntry])
  | vgeopt a b => exact absurd h (by simp [processEntry])
  | vmodel a => exact absurd h (by simp [processEntry])
  | vuser a => exact absurd h (by simp [processEntry])
  | vuserprop a => exact absurd h (by simp [processEntry])
  | vother a => exact absurd h (by simp [processEntry])

theorem foldlM_processEntry_strips (mHooks pHooks : List String) (entries : List PVal)
    (ds ds2 : Datastore)
    (h : entries.foldlM (processEntry mHooks pHooks) ds = .ok ds2) :
    ∀ m ∈ ds2.measurements, m ∈ ds.measurements ∨
      (lookupKey "properties" m.obj.attrs = none ∧
       "properties" ∉ m.obj.hookCalls.map Prod.fst) := by
  induction entries generalizing ds with
  | nil =>
    simp only [List.foldlM] at h
    simp only [pure, Except.pure, Except.ok.injEq] at h
    subst h
    exact fun m hm => Or.inl hm
  | cons e rest ih =>
    simp only [List.foldlM] at h
    rcases hp : processEntry mHooks pHooks ds e with _ | mid <;> rw [hp] at h
    · exact absurd h (by simp [Bind.bind, Except.bind])
    · simp only [Bind.bind, Except.bind] at h
      intro m hm
      rcases ih mid h m hm with hmem | hclean
      · exact processEntry_strips mHooks pHooks ds e mid hp m hmem
      · exact Or.inr hclean

/-- C6: every `Measurement` persisted by a successful submission batch
was built after the `properties` key was removed from (or absent in)
its entry's data, so it carries no `properties` attribute and received
no `properties` decode-hook invocation — the `properties` sub-object
never leaks into the persisted Measurement record. -/
theorem postMeasurement_strips_properties (mHooks pHooks : List String) (req : HttpRequest)
    (ds ds2 : Datastore) (resp : HttpResponse)
    (h : PostMeasurement mHooks pHooks req ds = .ok (ds2, resp)) :
    ∀ m ∈ ds2.measurements, m ∈ ds.measurements ∨
      (lookupKey "properties" m.obj.attrs = none ∧
       "properties" ∉ m.obj.hookCalls.map Prod.fst) := by
  unfold PostMeasurement at h
  by_cases hm : pyLower req.method ≠ "post"
  · rw [if_pos hm] at h
    exact absurd h (by simp)
  rw [if_neg hm] at h
  rcases hi : pyIter req.parsedBody with _ | entries <;> rw [hi] at h
  · exact absurd h (by simp)
  dsimp only at h
  rcases hf : entries.foldlM (processEntry mHooks pHooks) ds with _ | finalDs <;> rw [hf] at h
  · exact absurd h (by simp)
  dsimp only at h
  simp only [Except.ok.injEq, Prod.mk.injEq] at h
  obtain ⟨h1, -⟩ := h
  subst h1
  exact foldlM_processEntry_strips mHooks pHooks entries ds _ hf

/-- C6 witness: a one-entry batch containing a `properties` sub-object,
run from the empty store; the stored measurement has no `properties`
field. -/
theorem postMeasurement_strips_properties_witness :
    (⟨0, ⟨[("device_id", PVal.vstr "d9")], [], []⟩, 0⟩ : StoredMeasurement) ∈
        emptyDatastore.measurements ∨
      (lookupKey "properties"
          (⟨0, ⟨[("device_id", PVal.vstr "d9")], [], []⟩, 0⟩ : StoredMeasurement).obj.attrs =
        none ∧
       "properties" ∉
        ((⟨0, ⟨[("device_id", PVal.vstr "d9")], [], []⟩, 0⟩ :
          StoredMeasurement)).obj.hookCalls.map Prod.fst) :=
  postMeasurement_strips_properties [] []
    ⟨"POST", .vlist [.vdict [("device_id", .vstr "d9"),
                             ("properties", .vdict [("model", .vstr "m1")])]]⟩
    emptyDatastore
    ⟨["d9"], [⟨0, ⟨[("device_info", .vstr "d9"), ("model", .vstr "m1")], [], []⟩⟩],
     [⟨0, ⟨[("device_id", PVal.vstr "d9")], [], []⟩, 0⟩], 1, 1⟩
    ⟨200, "application/json", "\x7b\"success\": true\x7d"⟩
    rfl
    ⟨0, ⟨[("device_id", PVal.vstr "d9")], [], []⟩, 0⟩
    (List.mem_singleton.2 rfl)

/-- C2: whenever the detail-page id parses, the handler renders the
detail template with the normal argument set — the requested id, the
lookup result (possibly absent), the user's email and the logout
link — regardless of whether the measurement was found; the
error-branch template variables are unconditionally discarded by the
`finally` block. -/
theorem measurementDetail_always_renders_detail (ds : Datastore)
    (measid userEmail logoutLink : String) (i : Int)
    (h : pyIntOfString measid = some i) :
    MeasurementDetail ds measid userEmail logoutLink =
      .ok ⟨"templates/measurementdetail.html",
           [("id", .str measid),
            ("measurement", .meas (Measurement_get_by_id ds i)),
            ("user", .str userEmail),
            ("logout_link", .str logoutLink)]⟩ := by
  unfold MeasurementDetail
  rw [h]

/-- C2 witness: a lookup that finds nothing still renders the normal
detail template, with an absent measurement value and no error
message. -/
theorem measurementDetail_always_renders_detail_witness :
    MeasurementDetail emptyDatastore "7" "user@example.org" "/logout" =
      .ok ⟨"templates/measurementdetail.html",
           [("id", .str "7"),
            ("measurement", .meas none),
            ("user", .str "user@example.org"),
            ("logout_link", .str "/logout")]⟩ :=
  measurementDetail_always_renders_detail emptyDatastore "7" "user@example.org" "/logout" 7 rfl

/-- C1: a POST whose body is a two-element array — the first entry with
a `properties` sub-object and `device_id "d1"`, the second with the
same `device_id` and no `properties` (and the sub-object not spoofing
the `device_info` back-reference) — processed from the empty store,
succeeds end to end: exactly one DeviceInfo for `d1` exists, exactly
one DeviceProperties snapshot was created (by the first entry), the
second measurement reuses that most-recently-created snapshot, both
Measurement records link to the snapshot active at their own step, and
the response is HTTP 200 with body `\x7b"success": true\x7d`. -/
theorem postMeasurement_two_entry_batch (mHooks pHooks : List String)
    (e1 e2 p : List (String × PVal))
    (h1 : lookupKey "device_id" e1 = some (.vstr "d1"))
    (h2 : lookupKey "properties" e1 = some (.vdict p))
    (h3 : lookupKey "device_id" e2 = some (.vstr "d1"))
    (h4 : lookupKey "properties" e2 = none)
    (h5 : "device_info" ∉ p.map Prod.fst) :
    PostMeasurement mHooks pHooks ⟨"POST", .vlist [.vdict e1, .vdict e2]⟩ emptyDatastore =
      .ok (⟨["d1"],
            [⟨0, ConvertFromDict ⟨[("device_info", .vstr "d1")], pHooks, []⟩ p []⟩],
            [⟨0, ConvertFromDict ⟨[], mHooks, []⟩ (eraseKey "properties" e1) [], 0⟩,
             ⟨1, ConvertFromDict ⟨[], mHooks, []⟩ e2 [], 0⟩],
            1, 2⟩,
           ⟨200, "application/json", "\x7b\"success\": true\x7d"⟩) := by
  have hstep1 : processEntry mHooks pHooks emptyDatastore (.vdict e1) =
      .ok ⟨["d1"],
           [⟨0, ConvertFromDict ⟨[("device_info", .vstr "d1")], pHooks, []⟩ p []⟩],
           [⟨0, ConvertFromDict ⟨[], mHooks, []⟩ (eraseKey "properties" e1) [], 0⟩],
           1, 1⟩ := by
    unfold processEntry
    dsimp only
    rw [h1]
    dsimp only
    rw [h2]
    dsimp only
    simp [DeviceInfo_get_or_insert, emptyDatastore, storePropsAndMeasurement,
      DeviceProperties_put, Measurement_put]
  have hframe : lookupKey "device_info"
      (ConvertFromDict ⟨[("device_info", .vstr "d1")], pHooks, []⟩ p []).attrs =
      some (.vstr "d1") := by
    rw [convertFromDict_attr_frame _ _ _ _ h5]
    rfl
  have hbel : propsBelongsTo "d1"
      ⟨0, ConvertFromDict ⟨[("device_info", .vstr "d1")], pHooks, []⟩ p []⟩ = true := by
    unfold propsBelongsTo
    rw [hframe]
    simp
  have hstep2 : processEntry mHooks pHooks
      ⟨["d1"],
       [⟨0, ConvertFromDict ⟨[("device_info", .vstr "d1")], pHooks, []⟩ p []⟩],
       [⟨0, ConvertFromDict ⟨[], mHooks, []⟩ (eraseKey "properties" e1) [], 0⟩],
       1, 1⟩ (.vdict e2) =
      .ok ⟨["d1"],
           [⟨0, ConvertFromDict ⟨[("device_info", .vstr "d1")], pHooks, []⟩ p []⟩],
           [⟨0, ConvertFromDict ⟨[], mHooks, []⟩ (eraseKey "properties" e1) [], 0⟩,
            ⟨1, ConvertFromDict ⟨[], mHooks, []⟩ e2 [], 0⟩],
           1, 2⟩ := by
    unfold processEntry
    dsimp only
    rw [h3]
    dsimp only
    rw [h4]
    dsimp only
    simp [DeviceInfo_get_or_insert, GetLatestDeviceProperties, latestOf, hbel,
      storePropsAndMeasurement, DeviceProperties_put, Measurement_put]
  unfold PostMeasurement
  dsimp only
  have hpost : ¬(pyLower "POST" ≠ "post") := by decide
  rw [if_neg hpost]
  dsimp only [pyIter]
  simp only [List.foldlM, hstep1, hstep2, Bind.bind, Except.bind, pure, Except.pure]

/-- C1 witness: the two-entry batch at a concrete payload — first entry
with properties, second without — evaluated from the empty store. -/
theorem postMeasurement_two_entry_batch_witness :
    PostMeasurement [] []
      ⟨"POST", .vlist
        [.vdict [("device_id", .vstr "d1"),
                 ("properties", .vdict [("os", .vstr "android")]),
                 ("type", .vstr "ping")],
         .vdict [("device_id", .vstr "d1"), ("type", .vstr "dns_lookup")]]⟩
      emptyDatastore =
      .ok (⟨["d1"],
            [⟨0, ConvertFromDict ⟨[("device_info", .vstr "d1")], [], []⟩
                  [("os", .vstr "android")] []⟩],
            [⟨0, ConvertFromDict ⟨[], [], []⟩
                  (eraseKey "properties"
                    [("device_id", .vstr "d1"),
                     ("properties", .vdict [("os", .vstr "android")]),
                     ("type", .vstr "ping")]) [], 0⟩,
             ⟨1, ConvertFromDict ⟨[], [], []⟩
                  [("device_id", .vstr "d1"), ("type", .vstr "dns_lookup")] [], 0⟩],
            1, 2⟩,
           ⟨200, "application/json", "\x7b\"success\": true\x7d"⟩) :=
  postMeasurement_two_entry_batch [] []
    [("device_id", .vstr "d1"),
     ("properties", .vdict [("os", .vstr "android")]),
     ("type", .vstr "ping")]
    [("device_id", .vstr "d1"), ("type", .vstr "dns_lookup")]
    [("os", .vstr "android")]
    rfl rfl rfl rfl (by decide)

end Speedometer
